import Mathlib

/-!
Verification development for the `ld-scraper` repository
(`src/linkedin_scraper.py`, `src/main.py`).

Python/JS fragments relevant to the frozen claims are shallowly embedded as
executable Lean definitions.  Strings model Python strings, association lists
with string keys model Python dictionaries, `Except Unit` models a call that
may raise.
-/

/-! ### String utilities modelling Python primitives -/

/-- Model of Python's `pat in s` substring test, on character lists:
true when `pat` occurs as a contiguous sublist of the scanned list. -/
def containsSubAux (pat : List Char) : List Char → Bool
  | [] => pat.isEmpty
  | c :: rest => pat.isPrefixOf (c :: rest) || containsSubAux pat rest

/-- Model of Python's `pat in s` substring containment on strings. -/
def containsSub (s pat : String) : Bool :=
  containsSubAux pat.data s.data

/-- Model of Python's `s.split(sep)` for a one-character separator, on
character lists: split into the (possibly empty) groups between separators. -/
def splitOnChar (sep : Char) : List Char → List (List Char)
  | [] => [[]]
  | c :: rest =>
    if c = sep then [] :: splitOnChar sep rest
    else
      match splitOnChar sep rest with
      | [] => [[c]]
      | g :: gs => (c :: g) :: gs

/-- Model of Python's `s.split(sep)` for a one-character separator. -/
def pySplit (sep : Char) (s : String) : List String :=
  (splitOnChar sep s.data).map String.mk

/-- Model of Python's `s.strip()`: drop leading and trailing whitespace. -/
def pyStrip (s : String) : String :=
  String.mk (((s.data.dropWhile Char.isWhitespace).reverse.dropWhile Char.isWhitespace).reverse)

/-- Model of Python's `s.startswith(pat)` / JS `startsWith`. -/
def pyStartsWith (s pat : String) : Bool :=
  pat.data.isPrefixOf s.data

/-- Model of Python's `sep.join(parts)`. -/
def joinWith (sep : String) : List String → String
  | [] => ""
  | [x] => x
  | x :: y :: xs => x ++ sep ++ joinWith sep (y :: xs)

/-- Model of the repeated Python idiom
`[line.strip() for line in full_text.split('\n') if line.strip()]`. -/
def nonEmptyTrimmedLines (s : String) : List String :=
  ((pySplit '\n' s).map pyStrip).filter (fun l => l != "")

/-! ### Scroll loops (C1)

`extract_comments_with_post_context` runs a bounded `for iteration in
range(self.max_scroll_rounds)` loop with a stagnation counter that breaks
after 2 consecutive rounds without height growth.

`extract_posts` and `extract_full_publications` instead run
`while scroll_attempts < 10`, where `scroll_attempts` counts consecutive
stagnant rounds and is reset to 0 whenever the height changes; that loop has
no overall cap on the number of rounds. -/

/-- `self.max_scroll_rounds = 30` in `LinkedInScraper.__init__`. -/
def max_scroll_rounds : Nat := 30

/-- One-to-one model of the `for iteration in range(max_scroll_rounds)` loop
of `extract_comments_with_post_context`: `heights i` is the document height
measured in round `i`; returns the number of rounds executed.  `fuel` is the
number of remaining iterations of the `for` loop. -/
def commentsScrollAux (heights : Nat → Nat) : Nat → Nat → Nat → Nat → Nat
  | 0, i, _, _ => i
  | fuel + 1, i, lastHeight, stagnant =>
    let stagnant2 := if heights i = lastHeight then stagnant + 1 else 0
    if 2 ≤ stagnant2 then i + 1
    else commentsScrollAux heights fuel (i + 1) (heights i) stagnant2

/-- Number of scroll rounds executed by the comments-activity loop, starting
from `last_height = 0` and `stagnant_rounds = 0` as in the source. -/
def commentsScrollRounds (heights : Nat → Nat) : Nat :=
  commentsScrollAux heights max_scroll_rounds 0 0 0

/-- One-to-one model of the `while scroll_attempts < 10` loop of
`extract_posts` and `extract_full_publications`.  The list holds the heights
the page would report in successive rounds; `some n` means the loop exited
after `n` rounds, `none` means the loop was still running after consuming
every listed height. -/
def postsScrollAux : List Nat → Nat → Nat → Nat → Option Nat
  | [], i, _, attempts => if 10 ≤ attempts then some i else none
  | h :: rest, i, lastHeight, attempts =>
    if 10 ≤ attempts then some i
    else if h = lastHeight then postsScrollAux rest (i + 1) lastHeight (attempts + 1)
    else postsScrollAux rest (i + 1) h 0

/-- Rounds executed by the posts / full-publications scroll loop, starting
from `last_height = 0` and `scroll_attempts = 0` as in the source. -/
def postsScrollRounds (heights : List Nat) : Option Nat :=
  postsScrollAux heights 0 0 0

/-! ### Full publications extraction (C2) -/

/-- A publication record built by `extract_full_publications`. -/
structure PubItem where
  title : String
  publisher : Option String
  date : Option String
deriving DecidableEq

/-- Body of the `for li in pub_items` loop of `extract_full_publications`,
applied to one list item's `inner_text`: skips empty items, items whose first
line contains `More profiles`, and items whose third non-empty line starts
with the bullet `·`; otherwise builds the record, taking publisher and date
only from lines not starting with `·`. -/
def pubItemOfText (t : String) : Option PubItem :=
  let lines := nonEmptyTrimmedLines t
  if lines.isEmpty then none
  else if containsSub (lines.headD "") "More profiles" then none
  else if decide (2 < lines.length) && pyStartsWith (lines.getD 2 "") "·" then none
  else some ⟨lines.headD "",
    if decide (1 < lines.length) && !(pyStartsWith (lines.getD 1 "") "·") then
      some (lines.getD 1 "")
    else none,
    if decide (2 < lines.length) && !(pyStartsWith (lines.getD 2 "") "·") then
      some (lines.getD 2 "")
    else none⟩

/-- `extract_full_publications` over the inner texts of the located
`li.artdeco-list__item` elements. -/
def extract_full_publications (texts : List String) : List PubItem :=
  texts.filterMap pubItemOfText

/-! ### Slug derivation and comment extraction (C3, C10) -/

/-- Attempt to match the regex `/in/([^/]+)` at the current position: on
success return the captured run of non-`/` characters. -/
def matchInAt : List Char → Option String
  | '/' :: 'i' :: 'n' :: '/' :: c :: rest =>
    if c = '/' then none else some (String.mk (c :: rest.takeWhile (fun x => x ≠ '/')))
  | _ => none

/-- Left-to-right scan of `re.search(r"/in/([^/]+)", url)`. -/
def slugAuxL : List Char → String
  | [] => ""
  | c :: rest =>
    match matchInAt (c :: rest) with
    | some s => s
    | none => slugAuxL rest

/-- `self.user_slug` as computed in `LinkedInScraper.__init__`:
the first regex match of `/in/([^/]+)` in the profile URL, else `""`. -/
def slugFromUrl (url : String) : String :=
  slugAuxL url.data

/-- One comment element inside a card: its `innerText` and, when the element
has an enclosing `li` (`closest("li")`), the `href`s of all `a[href*='/in/']`
candidates in that `li` (modelled as all link hrefs; the `/in/` filter of the
query selector is re-applied in `isAuthoredByUser`). -/
structure CommentEl where
  text : String
  liLinks : Option (List String)
deriving DecidableEq

/-- One `div.feed-shared-update-v2` card on the comments activity page. -/
structure FeedCard where
  postText : Option String
  timestamp : Option String
  postAuthor : Option String
  comments : List CommentEl
deriving DecidableEq

/-- Record pushed by the bulk extraction script for one accepted comment. -/
structure CommentRecord where
  commentText : String
  postText : Option String
  timestamp : Option String
  postAuthor : Option String
deriving DecidableEq

/-- The `isAuthoredByUser` function of the bulk extraction script: true when
the enclosing `li` exists and some link href in it contains `/in/` (query
selector) and contains `/in/` followed by the user slug (the `find`). -/
def isAuthoredByUser (userSlug : String) (liLinks : Option (List String)) : Bool :=
  match liLinks with
  | none => false
  | some hrefs =>
    hrefs.any (fun href => containsSub href "/in/" && containsSub href ("/in/" ++ userSlug))

/-- The record the script pushes for an accepted comment element. -/
def commentRecordOf (card : FeedCard) (ce : CommentEl) : CommentRecord :=
  ⟨pyStrip ce.text, card.postText.map pyStrip,
   card.timestamp.map pyStrip, card.postAuthor.map pyStrip⟩

/-- Body of the `commentEls.forEach` loop: skip comments not authored by the
user, skip comments whose trimmed text is empty, otherwise push a record. -/
def commentOfEl (userSlug : String) (card : FeedCard) (ce : CommentEl) : Option CommentRecord :=
  if isAuthoredByUser userSlug ce.liLinks then
    if pyStrip ce.text == "" then none else some (commentRecordOf card ce)
  else none

/-- The bulk extraction script of `extract_comments_with_post_context`,
run over every card of the fully scrolled page. -/
def extract_comments_with_post_context (userSlug : String) (cards : List FeedCard) :
    List CommentRecord :=
  cards.flatMap (fun card => card.comments.filterMap (commentOfEl userSlug card))

/-! ### Dictionary model (C4, C5)

Python dictionaries with string keys are modelled as association lists looked
up by first match; `dictUpdate` models `old.update(new)`. -/

/-- Assignment `d[k] = v` on a Python dict modelled as an association list:
overwrite in place when the key exists, else append. -/
def dictInsert {V : Type} (d : List (String × V)) (k : String) (v : V) :
    List (String × V) :=
  if d.any (fun p => p.1 == k) then
    d.map (fun p => if p.1 == k then (k, v) else p)
  else d ++ [(k, v)]

/-- Lookup `d.get(k)`. -/
def dictGet {V : Type} (d : List (String × V)) (k : String) : Option V :=
  (d.find? (fun p => p.1 == k)).map Prod.snd

/-- Python's `old.update(new)`: every key of `new` is assigned into `old`. -/
def dictUpdate {V : Type} (old new : List (String × V)) : List (String × V) :=
  new.foldl (fun d p => dictInsert d p.1 p.2) old

/-! ### Orchestrator `LinkedInScraper.run` (C5) -/

/-- JSON-like values stored in the scraped-data dictionary. -/
inductive JVal where
  | s : String → JVal
  | arr : List JVal → JVal

/-- The dictionary returned by `extract_profile_data` (when it does not
raise): it always carries exactly these ten keys. -/
structure ProfileData where
  first_name : String
  last_name : String
  headline : String
  location : String
  about : String
  services : String
  experience : List JVal
  publications : List JVal
  languages : List JVal
  education : List JVal

/-- The key/value list of the dictionary built by `extract_profile_data`,
in assignment order. -/
def profileToDict (pd : ProfileData) : List (String × JVal) :=
  [("first_name", JVal.s pd.first_name), ("last_name", JVal.s pd.last_name),
   ("headline", JVal.s pd.headline), ("location", JVal.s pd.location),
   ("about", JVal.s pd.about), ("services", JVal.s pd.services),
   ("experience", JVal.arr pd.experience), ("publications", JVal.arr pd.publications),
   ("languages", JVal.arr pd.languages), ("education", JVal.arr pd.education)]

/-- Outcomes of the stages of `LinkedInScraper.run`.  Navigation calls and
`extract_profile_data` may raise (`Except`); `extract_full_publications`,
`extract_posts`, `extract_comments_with_post_context` and `extract_reactions`
each catch internally and always return a list. -/
structure RunOutcomes where
  navProfile : Except Unit Unit
  profileData : Except Unit ProfileData
  fullPubs : List JVal
  navPosts : Except Unit Unit
  posts : List JVal
  navComments : Except Unit Unit
  comments : List JVal
  navReactions : Except Unit Unit
  reactions : List JVal

/-- The reactions stage of `run`: navigate (may raise, aborting the try
body with the dictionary built so far) then store a non-empty result. -/
def reactStage (o : RunOutcomes) (sr : Bool) (d : List (String × JVal)) :
    List (String × JVal) :=
  if sr then
    match o.navReactions with
    | Except.error _ => d
    | Except.ok _ =>
      if o.reactions.isEmpty then d else dictInsert d "reactions" (JVal.arr o.reactions)
  else d

/-- The comments stage of `run`, followed by the reactions stage. -/
def commentStage (o : RunOutcomes) (sc sr : Bool) (d : List (String × JVal)) :
    List (String × JVal) :=
  if sc then
    match o.navComments with
    | Except.error _ => d
    | Except.ok _ =>
      reactStage o sr
        (if o.comments.isEmpty then d else dictInsert d "comments" (JVal.arr o.comments))
  else reactStage o sr d

/-- The posts stage of `run`, followed by the comments and reactions stages. -/
def postStage (o : RunOutcomes) (sp sc sr : Bool) (d : List (String × JVal)) :
    List (String × JVal) :=
  if sp then
    match o.navPosts with
    | Except.error _ => d
    | Except.ok _ =>
      commentStage o sc sr
        (if o.posts.isEmpty then d else dictInsert d "posts" (JVal.arr o.posts))
  else commentStage o sc sr d

/-- The dictionary built by the first two extraction stages of `run`:
`scraped_data.update(profile_data)` when the profile dictionary is non-empty,
then `scraped_data['publications'] = full_pubs` when that list is non-empty. -/
def baseDict (o : RunOutcomes) (pd : ProfileData) : List (String × JVal) :=
  let d0 := if (profileToDict pd).isEmpty then [] else dictUpdate [] (profileToDict pd)
  if o.fullPubs.isEmpty then d0 else dictInsert d0 "publications" (JVal.arr o.fullPubs)

/-- Model of `LinkedInScraper.run`: the whole try body accumulates into
`scraped_data`; the first raising stage jumps to the `except` handler, which
swallows the exception, and the dictionary built so far is returned. -/
def runModel (o : RunOutcomes) (sp sc sr : Bool) : List (String × JVal) :=
  match o.navProfile with
  | Except.error _ => []
  | Except.ok _ =>
    match o.profileData with
    | Except.error _ => []
    | Except.ok pd => postStage o sp sc sr (baseDict o pd)

/-! ### Browser teardown paths (C6) -/

/-- Externally visible actions of the two orchestration entry points. -/
inductive ScrapeEvent where
  | writeStatus : String → ScrapeEvent
  | closeBrowser : ScrapeEvent
  | saveProfile : ScrapeEvent
deriving DecidableEq

/-- Model of `run_and_save` in `linkedin_scraper.py`: `scraper.run` inside
`try`, `close_browser` in `finally`, then the profile file is written when
the result is non-empty; an exception from `run` propagates after the
`finally` block has run. -/
def run_and_save_model (r : Except Unit (List (String × JVal))) :
    List ScrapeEvent × Except Unit Unit :=
  match r with
  | Except.ok d =>
    ((if d.isEmpty then [ScrapeEvent.closeBrowser]
      else [ScrapeEvent.closeBrowser, ScrapeEvent.saveProfile]), Except.ok ())
  | Except.error e => ([ScrapeEvent.closeBrowser], Except.error e)

/-- Model of `_run_scraper_task` in `main.py`: status `running` is written,
then inside `try` the scraper runs, `close_browser` is called (not in a
`finally`), the profile is merged and written when non-empty, and status
`completed` is written; any exception jumps to `except`, which writes status
`error` and nothing else. -/
def run_scraper_task_model (r : Except Unit (List (String × JVal))) :
    List ScrapeEvent :=
  ScrapeEvent.writeStatus "running" ::
    match r with
    | Except.ok d =>
      ScrapeEvent.closeBrowser ::
        ((if d.isEmpty then [] else [ScrapeEvent.saveProfile]) ++
          [ScrapeEvent.writeStatus "completed"])
    | Except.error _ => [ScrapeEvent.writeStatus "error"]

/-! ### Reaction extraction (C7) -/

/-- `self.reactions_limit = 20` in `LinkedInScraper.__init__`. -/
def reactions_limit : Nat := 20

/-- One `div.feed-shared-update-v2` card on the reactions page: the actor
sub-description text and the first `.update-components-text`, each `none`
when the locator count is zero. -/
structure ReactionCard where
  actorText : Option String
  contentText : Option String
deriving DecidableEq

/-- A record built by `extract_reactions` for one card. -/
structure ReactionItem where
  liked_by : Option String
  content : Option String
deriving DecidableEq

/-- Body of the card loop of `extract_reactions`: `liked_by` is the first
space-separated token of the actor text when it contains `likes this` or
`celebrates this`; `content` is the stripped content text when present; the
record is kept only when at least one field was set. -/
def reactionOfCard (c : ReactionCard) : Option ReactionItem :=
  let likedBy : Option String :=
    match c.actorText with
    | none => none
    | some t =>
      if containsSub t "likes this" || containsSub t "celebrates this" then
        some ((pySplit ' ' t).headD "")
      else none
  let content : Option String := c.contentText.map pyStrip
  match likedBy, content with
  | none, none => none
  | _, _ => some ⟨likedBy, content⟩

/-- `extract_reactions`: no scrolling, only the first `reactions_limit`
visible cards are processed. -/
def extract_reactions (cards : List ReactionCard) : List ReactionItem :=
  (cards.take reactions_limit).filterMap reactionOfCard

/-! ### Language extraction (C8) -/

/-- A record built by `extract_languages` for one `li` element. -/
structure LangItem where
  language : String
  proficiency : String
deriving DecidableEq

/-- Model of `list(dict.fromkeys(lines))`: order-preserving first-occurrence
deduplication, `seen` holding the keys already emitted. -/
def dedupAux (seen : List String) : List String → List String
  | [] => []
  | x :: xs => if x ∈ seen then dedupAux seen xs else x :: dedupAux (x :: seen) xs

/-- Body of the element loop of `extract_languages`, on the element's
non-empty trimmed lines: deduplicate, then the first distinct line is the
language and the second the proficiency, defaulting to `Not specified`. -/
def langOfLines (lines : List String) : Option LangItem :=
  match dedupAux [] lines with
  | [] => none
  | l :: rest => some ⟨l, rest.headD "Not specified"⟩

/-- `extract_languages` over the inner texts of the located `li` elements. -/
def extract_languages (texts : List String) : List LangItem :=
  texts.filterMap (fun t => langOfLines (nonEmptyTrimmedLines t))

/-! ### Experience extraction (C9) -/

/-- A record built by `extract_experience` for one list item. -/
structure ExpItem where
  title : String
  company : String
  date : String
  location : String
  description : String
deriving DecidableEq

/-- Body of the item loop of `extract_experience`, on the item's non-empty
trimmed span texts: pop title, company, date in order; the next token becomes
the location exactly when it contains neither `·` nor `yr`, otherwise the
location is empty and the token stays; the rest joined with spaces is the
description.  Empty token lists are skipped (`continue`). -/
def parseExperienceTokens : List String → Option ExpItem
  | [] => none
  | title :: r1 =>
    let company := r1.headD ""
    let r2 := r1.tail
    let date := r2.headD ""
    let r3 := r2.tail
    match r3 with
    | [] => some ⟨title, company, date, "", joinWith " " []⟩
    | x :: r4 =>
      if !containsSub x "·" && !containsSub x "yr" then
        some ⟨title, company, date, x, joinWith " " r4⟩
      else
        some ⟨title, company, date, "", joinWith " " (x :: r4)⟩

/-- `extract_experience` over the raw `span[aria-hidden='true']` texts of
each list item, applying the strip-and-drop-empty preprocessing. -/
def extract_experience (itemsTexts : List (List String)) : List ExpItem :=
  itemsTexts.filterMap
    (fun ts => parseExperienceTokens ((ts.map pyStrip).filter (fun s => s != "")))

/-! ## Theorems -/

/-! ### Helper lemmas -/

/-- The comments scroll loop executes at most `fuel` further rounds. -/
theorem commentsScrollAux_le (heights : Nat → Nat) :
    ∀ (fuel i lastHeight stagnant : Nat),
      commentsScrollAux heights fuel i lastHeight stagnant ≤ i + fuel := by
  intro fuel
  induction fuel with
  | zero => intro i l s; simp [commentsScrollAux]
  | succ n ih =>
    intro i l s
    simp only [commentsScrollAux]
    split <;> split
    · omega
    · have h := ih (i + 1) (heights i) (s + 1)
      omega
    · omega
    · have h := ih (i + 1) (heights i) 0
      omega

/-- A list of first-occurrence distinct entries starts with the first entry
not yet seen. -/
theorem dedupAux_head? (xs : List String) :
    ∀ seen, (dedupAux seen xs).head? = xs.find? (fun x => decide (x ∉ seen)) := by
  induction xs with
  | nil => intro seen; rfl
  | cons x xs ih =>
    intro seen
    by_cases h : x ∈ seen
    · rw [List.find?_cons_of_neg _ (by simp [h])]
      simp only [dedupAux, if_pos h]
      exact ih seen
    · rw [List.find?_cons_of_pos _ (by simp [h])]
      simp only [dedupAux, if_neg h]
      rfl

/-! ### C1: scroll loop termination and early stop -/

/-- C1 counterexample: the claim fails for the `while scroll_attempts < 10`
loop shared by `extract_posts` and `extract_full_publications`.  On the
height sequence `[100, 200, 200, 200]` that loop is still running after
round 4 (it needs 10 consecutive stagnant rounds, not 2), and on a height
sequence that changes on all of 40 successive rounds it is still running
after round 40, beyond any configured round limit. -/
theorem scroll_rounds_counterexample :
    postsScrollRounds [100, 200, 200, 200] = none
    ∧ postsScrollRounds ((List.range 40).map (fun n => 100 * (n + 1))) = none :=
  ⟨by decide, by decide⟩

/-- C1 (amended): the scroll loop of `extract_comments_with_post_context`
terminates within `max_scroll_rounds = 30` rounds for every height sequence
and stops after round 4 on heights `[100, 200, 200, 200]`, below the limit;
the loops of `extract_posts` and `extract_full_publications` stop only after
10 consecutive stagnant rounds (e.g. after round 12 on a height sequence
that stagnates from round 2 on) and have no overall round cap. -/
theorem scroll_rounds_amended :
    (∀ heights : Nat → Nat, commentsScrollRounds heights ≤ max_scroll_rounds)
    ∧ commentsScrollRounds (fun i => [100, 200, 200, 200].getD i 0) = 4
    ∧ 4 < max_scroll_rounds
    ∧ postsScrollRounds (100 :: 200 :: List.replicate 10 200) = some 12 := by
  refine ⟨fun heights => ?_, by decide, by decide, by decide⟩
  have h := commentsScrollAux_le heights max_scroll_rounds 0 0 0
  simpa [commentsScrollRounds] using h

/-! ### C9: experience token consumption order -/

/-- C9: `extract_experience` consumes an item's trimmed tokens in fixed
order: title, company, date; the next token becomes the location exactly
when it contains neither `·` nor `yr`, otherwise the location is empty and
the token stays in the remainder; the remaining tokens joined with single
spaces form the description. -/
theorem experience_token_order (t c d x : String) (rest : List String) :
    parseExperienceTokens [] = none
    ∧ parseExperienceTokens [t] = some ⟨t, "", "", "", ""⟩
    ∧ parseExperienceTokens [t, c] = some ⟨t, c, "", "", ""⟩
    ∧ parseExperienceTokens [t, c, d] = some ⟨t, c, d, "", ""⟩
    ∧ ((!containsSub x "·" && !containsSub x "yr") = true →
        parseExperienceTokens (t :: c :: d :: x :: rest) =
          some ⟨t, c, d, x, joinWith " " rest⟩)
    ∧ ((containsSub x "·" || containsSub x "yr") = true →
        parseExperienceTokens (t :: c :: d :: x :: rest) =
          some ⟨t, c, d, "", joinWith " " (x :: rest)⟩) := by
  refine ⟨rfl, rfl, rfl, rfl, ?_, ?_⟩
  · intro h
    simp [parseExperienceTokens, h]
  · intro h
    have h2 : (!containsSub x "·" && !containsSub x "yr") = false := by
      cases hy : containsSub x "·" <;> cases hz : containsSub x "yr" <;> simp_all
    simp [parseExperienceTokens, h2]

/-- C9 witness: a concrete item whose fourth token has neither `·` nor `yr`
is parsed with that token as location and the rest joined as description. -/
theorem experience_token_order_witness :
    parseExperienceTokens ["Engineer", "Acme", "2020 - 2021 · 1 yr", "Berlin", "Did", "things"] =
      some ⟨"Engineer", "Acme", "2020 - 2021 · 1 yr", "Berlin", "Did things"⟩ := by
  have h := (experience_token_order "Engineer" "Acme" "2020 - 2021 · 1 yr" "Berlin"
    ["Did", "things"]).2.2.2.2.1 (by decide)
  rw [h]
  decide

/-! ### C7: reactions bounded, actor phrase matching -/

/-- C7: `extract_reactions` returns at most `reactions_limit = 20` records,
drawn only from the first 20 cards; a card whose actor text contains
`likes this` or `celebrates this` yields a record whose `liked_by` is the
first space-separated token of the actor text, and a card whose actor text
matches neither phrase never yields a record with `liked_by` set. -/
theorem reactions_bounded_and_actor_match (cards : List ReactionCard)
    (c : ReactionCard) (t : String) :
    (extract_reactions cards).length ≤ reactions_limit
    ∧ extract_reactions cards = extract_reactions (cards.take reactions_limit)
    ∧ (c.actorText = some t →
        (containsSub t "likes this" || containsSub t "celebrates this") = true →
        reactionOfCard c = some ⟨some ((pySplit ' ' t).headD ""), c.contentText.map pyStrip⟩)
    ∧ (c.actorText = some t →
        (containsSub t "likes this" || containsSub t "celebrates this") = false →
        ∀ r, reactionOfCard c = some r → r.liked_by = none) := by
  refine ⟨?_, ?_, ?_, ?_⟩
  · calc (extract_reactions cards).length
        ≤ (cards.take reactions_limit).length := List.length_filterMap_le _ _
      _ ≤ reactions_limit := List.length_take_le _ _
  · simp [extract_reactions, List.take_take]
  · intro h1 h2
    cases hc : c.contentText <;> simp [reactionOfCard, h1, h2, hc]
  · intro h1 h2 r hr
    cases hc : c.contentText with
    | none => simp [reactionOfCard, h1, h2, hc] at hr
    | some v =>
      simp [reactionOfCard, h1, h2, hc] at hr
      rw [← hr]

/-- C7 witness: a card with actor text `Alice Smith likes this` yields a
record with `liked_by = Alice`. -/
theorem reactions_bounded_witness :
    reactionOfCard ⟨some "Alice Smith likes this", some " Hello "⟩ =
      some ⟨some "Alice", some "Hello"⟩ := by
  have h := (reactions_bounded_and_actor_match []
    ⟨some "Alice Smith likes this", some " Hello "⟩ "Alice Smith likes this").2.2.1
    rfl (by decide)
  rw [h]
  decide

/-! ### C8: language deduplication -/

/-- C8: `extract_languages` deduplicates order-preservingly by first
occurrence: the language is the first line, the proficiency the first
subsequent line different from it, defaulting to `Not specified`; the lines
`["English", "English", "Native"]` yield language `English` with
proficiency `Native`. -/
theorem languages_dedup_first_occurrence :
    (∀ (l : String) (ls : List String),
      langOfLines (l :: ls) =
        some ⟨l, ((ls.find? (fun x => x != l)).getD "Not specified")⟩)
    ∧ langOfLines [] = none
    ∧ dedupAux [] ["English", "English", "Native"] = ["English", "Native"]
    ∧ extract_languages ["English\nEnglish\nNative"] = [⟨"English", "Native"⟩] := by
  refine ⟨?_, rfl, by decide, by decide⟩
  intro l ls
  have hstep : dedupAux [] (l :: ls) = l :: dedupAux [l] ls := by
    simp [dedupAux]
  have hhead : (dedupAux [l] ls).head? = ls.find? (fun x => decide (x ∉ [l])) :=
    dedupAux_head? ls [l]
  have hpred : (fun x : String => decide (x ∉ [l])) = (fun x => x != l) := by
    funext x
    by_cases hx : x = l <;> simp [hx, bne]
  rw [hpred] at hhead
  simp [langOfLines, hstep, List.headD_eq_head?_getD, hhead]

/-! ### C2: full publications filter -/

/-- C2 counterexample: the claim fails on `extract_full_publications`.  An
item whose second non-empty line starts with `·` is not excluded (it is kept
with the title and no publisher), while an item whose first line contains
`More profiles` is excluded even though its second line does not start
with `·`. -/
theorem full_publications_counterexample :
    extract_full_publications ["Paper A\n· 3rd degree connection"] = [⟨"Paper A", none, none⟩]
    ∧ extract_full_publications ["More profiles for you\nAlice Smith"] = [] :=
  ⟨by decide, by decide⟩

/-- C2 (amended): `extract_full_publications` excludes a list item exactly
when its trimmed lines are empty, its first line contains `More profiles`,
or its third non-empty line starts with `·`; every other item is included
with the first line as title, the second line as publisher unless it starts
with `·`, and the third line as date unless it starts with `·`. -/
theorem full_publications_amended (t : String) (lines : List String)
    (hl : nonEmptyTrimmedLines t = lines) :
    (lines.isEmpty = true → pubItemOfText t = none)
    ∧ (containsSub (lines.headD "") "More profiles" = true → pubItemOfText t = none)
    ∧ ((decide (2 < lines.length) && pyStartsWith (lines.getD 2 "") "·") = true →
        pubItemOfText t = none)
    ∧ (lines.isEmpty = false →
        containsSub (lines.headD "") "More profiles" = false →
        (decide (2 < lines.length) && pyStartsWith (lines.getD 2 "") "·") = false →
        pubItemOfText t =
          some ⟨lines.headD "",
            if decide (1 < lines.length) && !(pyStartsWith (lines.getD 1 "") "·") then
              some (lines.getD 1 "")
            else none,
            if decide (2 < lines.length) && !(pyStartsWith (lines.getD 2 "") "·") then
              some (lines.getD 2 "")
            else none⟩) := by
  have hunfold : pubItemOfText t =
      (if lines.isEmpty then none
       else if containsSub (lines.headD "") "More profiles" then none
       else if decide (2 < lines.length) && pyStartsWith (lines.getD 2 "") "·" then none
       else some ⟨lines.headD "",
         if decide (1 < lines.length) && !(pyStartsWith (lines.getD 1 "") "·") then
           some (lines.getD 1 "")
         else none,
         if decide (2 < lines.length) && !(pyStartsWith (lines.getD 2 "") "·") then
           some (lines.getD 2 "")
         else none⟩) := by
    simp only [pubItemOfText, hl]
  refine ⟨?_, ?_, ?_, ?_⟩
  · intro h
    rw [hunfold, h]
    rfl
  · intro h
    cases h0 : lines.isEmpty
    · rw [hunfold, h0, h]
      rfl
    · rw [hunfold, h0]
      rfl
  · intro h
    cases h0 : lines.isEmpty
    · cases hmp : containsSub (lines.headD "") "More profiles"
      · rw [hunfold, h0, hmp, h]
        rfl
      · rw [hunfold, h0, hmp]
        rfl
    · rw [hunfold, h0]
      rfl
  · intro h0 hmp hcond
    rw [hunfold, h0, hmp, hcond]
    rfl

/-- C2 witness: a three-line item with no bullet lines is included with
title, publisher and date from its first three lines. -/
theorem full_publications_amended_witness :
    pubItemOfText "Paper B\nJournal X\n2021" = some ⟨"Paper B", some "Journal X", some "2021"⟩ := by
  have h := (full_publications_amended "Paper B\nJournal X\n2021"
    ["Paper B", "Journal X", "2021"] (by decide)).2.2.2 (by decide) (by decide) (by decide)
  rw [h]
  decide

/-! ### C3: comment authorship filter -/

/-- A `filterMap` whose function is a guarded `some` is a `filter` followed
by a `map`. -/
theorem filterMap_eq_filter_map {α β : Type} (f : α → Option β) (p : α → Bool) (g : α → β)
    (h : ∀ a, f a = if p a then some (g a) else none) :
    ∀ l : List α, l.filterMap f = (l.filter p).map g := by
  intro l
  induction l with
  | nil => rfl
  | cons a tl ih =>
    cases hp : p a <;> simp [List.filterMap_cons, List.filter_cons, h a, hp, ih]

/-- C3 counterexample: the claim fails on the bulk extraction script.  A
comment block whose enclosing list item does contain an author link matching
the slug `jane-doe`, but whose text trims to the empty string, produces no
record, so records are not emitted for exactly the author-matching blocks. -/
theorem comments_filter_counterexample :
    extract_comments_with_post_context "jane-doe"
      [⟨some "P", some "1w", some "A",
        [⟨"   ", some ["https://www.linkedin.com/in/jane-doe"]⟩]⟩] = []
    ∧ isAuthoredByUser "jane-doe" (some ["https://www.linkedin.com/in/jane-doe"]) = true :=
  ⟨by decide, by decide⟩

/-- C3 (amended): the bulk extraction script emits one record per comment
element whose enclosing list item passes the authorship filter and whose
trimmed text is non-empty, pairing the trimmed comment text with the
enclosing card's trimmed post text, timestamp and author; on a card holding
one comment by `jane-doe` and one by `john-smith`, slug `jane-doe` yields
exactly the one record for the `jane-doe` comment. -/
theorem comments_filter_amended (userSlug : String) (cards : List FeedCard) :
    extract_comments_with_post_context userSlug cards =
      cards.flatMap (fun card =>
        ((card.comments.filter (fun ce =>
            isAuthoredByUser userSlug ce.liLinks && !(pyStrip ce.text == ""))).map
          (commentRecordOf card)))
    ∧ extract_comments_with_post_context "jane-doe"
        [⟨some "Post body", some "2w", some "Acme Corp",
          [⟨"Great insight!", some ["https://www.linkedin.com/in/jane-doe"]⟩,
           ⟨"Thanks for sharing", some ["https://www.linkedin.com/in/john-smith"]⟩]⟩] =
      [⟨"Great insight!", some "Post body", some "2w", some "Acme Corp"⟩] := by
  constructor
  · unfold extract_comments_with_post_context
    have hfun : ∀ card : FeedCard,
        card.comments.filterMap (commentOfEl userSlug card) =
          (card.comments.filter (fun ce =>
            isAuthoredByUser userSlug ce.liLinks && !(pyStrip ce.text == ""))).map
            (commentRecordOf card) := by
      intro card
      apply filterMap_eq_filter_map
      intro ce
      unfold commentOfEl
      by_cases h1 : isAuthoredByUser userSlug ce.liLinks <;>
        by_cases h2 : pyStrip ce.text == "" <;> simp [h1, h2]
    exact congrArg _ (funext hfun)
  · decide

/-! ### C6: browser teardown paths -/

/-- C6 counterexample: the claim fails on `_run_scraper_task` in `main.py`.
On the exit path where `scraper.run` raises (which is reachable, because
`initialize_browser` and `context.new_page()` are executed outside `run`'s
try block), the task's `except` handler writes the error status and returns
without ever invoking `close_browser`. -/
theorem close_browser_counterexample :
    ScrapeEvent.closeBrowser ∉ run_scraper_task_model (Except.error ()) := by
  decide

/-- C6 (amended): `run_and_save` invokes `close_browser` on every exit path,
exceptional or not, via its try/finally; `_run_scraper_task` invokes it on
every path where `scraper.run` returns normally, but not on the path where
`scraper.run` raises. -/
theorem close_browser_amended :
    (∀ r : Except Unit (List (String × JVal)),
      ScrapeEvent.closeBrowser ∈ (run_and_save_model r).1)
    ∧ (∀ d : List (String × JVal),
        ScrapeEvent.closeBrowser ∈ run_scraper_task_model (Except.ok d)) := by
  constructor
  · intro r
    cases r with
    | ok d => by_cases h : d.isEmpty <;> simp [run_and_save_model, h]
    | error e => simp [run_and_save_model]
  · intro d
    by_cases h : d.isEmpty <;> simp [run_scraper_task_model, h]

/-! ### C4: dictionary merge -/

/-- Replacing every entry with the target key leaves the first hit at the
target key equal to the new pair. -/
theorem find?_keyReplace_self {V : Type} (k : String) (v : V) :
    ∀ d : List (String × V),
      (d.map (fun p => if p.1 == k then (k, v) else p)).find? (fun p => p.1 == k) =
        (d.find? (fun p => p.1 == k)).map (fun _ => (k, v)) := by
  intro d
  induction d with
  | nil => rfl
  | cons p rest ih =>
    by_cases h : (p.1 == k) = true
    · rw [List.map_cons, if_pos h]
      simp only [List.find?_cons, h, beq_self_eq_true]
      rfl
    · have hb : (p.1 == k) = false := by simpa using h
      rw [List.map_cons, if_neg h]
      simp only [List.find?_cons, hb]
      exact ih

/-- Replacing every entry with key `k` does not change lookups at a
different key. -/
theorem find?_keyReplace_ne {V : Type} (k k' : String) (v : V) (hne : k' ≠ k) :
    ∀ d : List (String × V),
      (d.map (fun p => if p.1 == k then (k, v) else p)).find? (fun p => p.1 == k') =
        d.find? (fun p => p.1 == k') := by
  intro d
  induction d with
  | nil => rfl
  | cons p rest ih =>
    by_cases h : (p.1 == k) = true
    · have hp : p.1 = k := by simpa using h
      have h1 : (k == k') = false := beq_eq_false_iff_ne.mpr (Ne.symm hne)
      have h2 : (p.1 == k') = false := by rw [hp]; exact h1
      rw [List.map_cons, if_pos h]
      simp only [List.find?_cons, h1, h2]
      exact ih
    · rw [List.map_cons, if_neg h]
      cases hk : (p.1 == k') with
      | true => simp only [List.find?_cons, hk]
      | false =>
        simp only [List.find?_cons, hk]
        exact ih

/-- After `d[k] = v`, looking up `k` yields `v`. -/
theorem dictGet_insert_self {V : Type} (d : List (String × V)) (k : String) (v : V) :
    dictGet (dictInsert d k v) k = some v := by
  unfold dictGet dictInsert
  by_cases h : d.any (fun p => p.1 == k) = true
  · rw [if_pos h, find?_keyReplace_self]
    obtain ⟨p, hmem, hp⟩ := List.any_eq_true.mp h
    cases hf : d.find? (fun p => p.1 == k) with
    | none =>
      rw [List.find?_eq_none] at hf
      exact absurd hp (hf p hmem)
    | some q => rfl
  · rw [if_neg h, List.find?_append]
    have hnone : d.find? (fun p => p.1 == k) = none := by
      rw [List.find?_eq_none]
      intro x hx hpx
      exact h (List.any_eq_true.mpr ⟨x, hx, hpx⟩)
    rw [hnone]
    simp

/-- After `d[k] = v`, lookups at other keys are unchanged. -/
theorem dictGet_insert_ne {V : Type} (d : List (String × V)) (k k' : String) (v : V)
    (hne : k' ≠ k) : dictGet (dictInsert d k v) k' = dictGet d k' := by
  unfold dictGet dictInsert
  by_cases h : d.any (fun p => p.1 == k) = true
  · rw [if_pos h, find?_keyReplace_ne k k' v hne]
  · rw [if_neg h, List.find?_append]
    have hs : (k == k') = false := beq_eq_false_iff_ne.mpr (Ne.symm hne)
    simp only [List.find?_cons, hs]
    cases d.find? (fun p => p.1 == k') <;> rfl

/-- A key absent from an association list's key column looks up to `none`. -/
theorem dictGet_eq_none_of_not_mem_keys {V : Type} (d : List (String × V)) (k : String)
    (h : k ∉ d.map Prod.fst) : dictGet d k = none := by
  unfold dictGet
  have hf : d.find? (fun p => p.1 == k) = none := by
    rw [List.find?_eq_none]
    intro x hx hpx
    exact h (List.mem_map.mpr ⟨x, hx, by simpa using hpx⟩)
  rw [hf]
  rfl

/-- Keys absent from `new` keep their old value across `old.update(new)`. -/
theorem dictGet_update_none {V : Type} (new : List (String × V)) :
    ∀ (old : List (String × V)) (k : String), dictGet new k = none →
      dictGet (dictUpdate old new) k = dictGet old k := by
  induction new with
  | nil => intro old k _; rfl
  | cons p rest ih =>
    intro old k h
    have h1 : (p.1 == k) = false := by
      cases hp : (p.1 == k)
      · rfl
      · exfalso
        unfold dictGet at h
        simp only [List.find?_cons, hp] at h
        simp at h
    have h2 : dictGet rest k = none := by
      unfold dictGet at h ⊢
      simp only [List.find?_cons, h1] at h
      exact h
    show dictGet (dictUpdate (dictInsert old p.1 p.2) rest) k = dictGet old k
    rw [ih (dictInsert old p.1 p.2) k h2,
      dictGet_insert_ne old p.1 k p.2 (Ne.symm (beq_eq_false_iff_ne.mp h1))]

/-- Keys present in `new` take their new value across `old.update(new)`,
provided `new` has pairwise-distinct keys (as a Python dictionary does). -/
theorem dictGet_update_some {V : Type} (new : List (String × V)) :
    ∀ (old : List (String × V)) (k : String) (v : V),
      (new.map Prod.fst).Nodup → dictGet new k = some v →
      dictGet (dictUpdate old new) k = some v := by
  induction new with
  | nil => intro old k v _ h; cases h
  | cons p rest ih =>
    intro old k v hnd h
    have hnd' : p.1 ∉ rest.map Prod.fst ∧ (rest.map Prod.fst).Nodup := by
      rw [List.map_cons, List.nodup_cons] at hnd
      exact hnd
    by_cases hk : (p.1 == k) = true
    · have hpk : p.1 = k := by simpa using hk
      have hv : p.2 = v := by
        unfold dictGet at h
        simp only [List.find?_cons, hk] at h
        simpa using h
      have hmem : k ∉ rest.map Prod.fst := hpk ▸ hnd'.1
      have hnone : dictGet rest k = none := dictGet_eq_none_of_not_mem_keys rest k hmem
      show dictGet (dictUpdate (dictInsert old p.1 p.2) rest) k = some v
      rw [dictGet_update_none rest (dictInsert old p.1 p.2) k hnone, hpk, hv,
        dictGet_insert_self]
    · have hb : (p.1 == k) = false := by simpa using hk
      have h2 : dictGet rest k = some v := by
        unfold dictGet at h ⊢
        simp only [List.find?_cons, hb] at h
        exact h
      show dictGet (dictUpdate (dictInsert old p.1 p.2) rest) k = some v
      exact ih (dictInsert old p.1 p.2) k v hnd'.2 h2

/-- C4: merging a scrape result into a stored record via
`existing_data.update(scraped_data)` overwrites exactly the keys present in
the new result: a key that `new` maps to `v` looks up to `v` afterwards, and
a key absent from `new` keeps its previously stored value. -/
theorem merge_overwrites_exactly_new_keys {V : Type} (old new : List (String × V))
    (hn : (new.map Prod.fst).Nodup) (k : String) :
    (∀ v, dictGet new k = some v → dictGet (dictUpdate old new) k = some v)
    ∧ (dictGet new k = none → dictGet (dictUpdate old new) k = dictGet old k) :=
  ⟨fun v h => dictGet_update_some new old k v hn h,
   fun h => dictGet_update_none new old k h⟩

/-- C4 witness: with stored record `a=1, b=2` and new result `b=3, c=4`,
key `b` is overwritten and key `a` keeps its stored value. -/
theorem merge_overwrites_witness :
    dictGet (dictUpdate [("a", "1"), ("b", "2")] [("b", "3"), ("c", "4")]) "a" = some "1"
    ∧ dictGet (dictUpdate [("a", "1"), ("b", "2")] [("b", "3"), ("c", "4")]) "b" = some "3" := by
  constructor
  · have h := (merge_overwrites_exactly_new_keys [("a", "1"), ("b", "2")]
      [("b", "3"), ("c", "4")] (by decide) "a").2 (by decide)
    rw [h]
    decide
  · exact (merge_overwrites_exactly_new_keys [("a", "1"), ("b", "2")]
      [("b", "3"), ("c", "4")] (by decide) "b").1 "3" (by decide)

/-! ### C5: the orchestrator never raises and failed stages contribute nothing -/

/-- The reactions stage leaves every key other than `reactions` unchanged. -/
theorem dictGet_reactStage_ne (o : RunOutcomes) (sr : Bool) (d : List (String × JVal))
    (k : String) (hk : k ≠ "reactions") :
    dictGet (reactStage o sr d) k = dictGet d k := by
  unfold reactStage
  split
  · split
    · rfl
    · split
      · rfl
      · exact dictGet_insert_ne d "reactions" k (JVal.arr o.reactions) hk
  · rfl

/-- The comments stage leaves keys other than `comments` and `reactions`
unchanged. -/
theorem dictGet_commentStage_ne (o : RunOutcomes) (sc sr : Bool) (d : List (String × JVal))
    (k : String) (hk1 : k ≠ "comments") (hk2 : k ≠ "reactions") :
    dictGet (commentStage o sc sr d) k = dictGet d k := by
  unfold commentStage
  split
  · split
    · rfl
    · split
      · exact dictGet_reactStage_ne o sr d k hk2
      · rw [dictGet_reactStage_ne o sr _ k hk2,
          dictGet_insert_ne d "comments" k (JVal.arr o.comments) hk1]
  · exact dictGet_reactStage_ne o sr d k hk2

/-- The posts stage leaves keys other than the three activity keys
unchanged. -/
theorem dictGet_postStage_ne (o : RunOutcomes) (sp sc sr : Bool) (d : List (String × JVal))
    (k : String) (hk1 : k ≠ "posts") (hk2 : k ≠ "comments") (hk3 : k ≠ "reactions") :
    dictGet (postStage o sp sc sr d) k = dictGet d k := by
  unfold postStage
  split
  · split
    · rfl
    · split
      · exact dictGet_commentStage_ne o sc sr d k hk2 hk3
      · rw [dictGet_commentStage_ne o sc sr _ k hk2 hk3,
          dictGet_insert_ne d "posts" k (JVal.arr o.posts) hk1]
  · exact dictGet_commentStage_ne o sc sr d k hk2 hk3

/-- When reactions navigation fails or the reactions list is empty, the
reactions stage does not set `reactions`. -/
theorem dictGet_reactStage_reactions (o : RunOutcomes) (sr : Bool)
    (d : List (String × JVal))
    (h : o.navReactions = Except.error () ∨ o.reactions.isEmpty = true) :
    dictGet (reactStage o sr d) "reactions" = dictGet d "reactions" := by
  unfold reactStage
  split
  · split
    · rfl
    · split
      · rfl
      · rcases h with h | h <;> simp_all
  · rfl

/-- When comments navigation fails or the comments list is empty, the
comments stage does not set `comments`. -/
theorem dictGet_commentStage_comments (o : RunOutcomes) (sc sr : Bool)
    (d : List (String × JVal))
    (h : o.navComments = Except.error () ∨ o.comments.isEmpty = true) :
    dictGet (commentStage o sc sr d) "comments" = dictGet d "comments" := by
  unfold commentStage
  split
  · split
    · rfl
    · split
      · exact dictGet_reactStage_ne o sr d "comments" (by decide)
      · rcases h with h | h <;> simp_all
  · exact dictGet_reactStage_ne o sr d "comments" (by decide)

/-- When reactions navigation fails or the reactions list is empty, the
comments stage does not set `reactions`. -/
theorem dictGet_commentStage_reactions (o : RunOutcomes) (sc sr : Bool)
    (d : List (String × JVal))
    (h : o.navReactions = Except.error () ∨ o.reactions.isEmpty = true) :
    dictGet (commentStage o sc sr d) "reactions" = dictGet d "reactions" := by
  unfold commentStage
  split
  · split
    · rfl
    · split
      · exact dictGet_reactStage_reactions o sr d h
      · rw [dictGet_reactStage_reactions o sr _ h,
          dictGet_insert_ne d "comments" "reactions" (JVal.arr o.comments) (by decide)]
  · exact dictGet_reactStage_reactions o sr d h

/-- When posts navigation fails or the posts list is empty, the posts stage
does not set `posts`. -/
theorem dictGet_postStage_posts (o : RunOutcomes) (sp sc sr : Bool)
    (d : List (String × JVal))
    (h : o.navPosts = Except.error () ∨ o.posts.isEmpty = true) :
    dictGet (postStage o sp sc sr d) "posts" = dictGet d "posts" := by
  unfold postStage
  split
  · split
    · rfl
    · split
      · exact dictGet_commentStage_ne o sc sr d "posts" (by decide) (by decide)
      · rcases h with h | h <;> simp_all
  · exact dictGet_commentStage_ne o sc sr d "posts" (by decide) (by decide)

/-- When comments navigation fails or the comments list is empty, the posts
stage does not set `comments`. -/
theorem dictGet_postStage_comments (o : RunOutcomes) (sp sc sr : Bool)
    (d : List (String × JVal))
    (h : o.navComments = Except.error () ∨ o.comments.isEmpty = true) :
    dictGet (postStage o sp sc sr d) "comments" = dictGet d "comments" := by
  unfold postStage
  split
  · split
    · rfl
    · split
      · exact dictGet_commentStage_comments o sc sr d h
      · rw [dictGet_commentStage_comments o sc sr _ h,
          dictGet_insert_ne d "posts" "comments" (JVal.arr o.posts) (by decide)]
  · exact dictGet_commentStage_comments o sc sr d h

/-- When reactions navigation fails or the reactions list is empty, the
posts stage does not set `reactions`. -/
theorem dictGet_postStage_reactions (o : RunOutcomes) (sp sc sr : Bool)
    (d : List (String × JVal))
    (h : o.navReactions = Except.error () ∨ o.reactions.isEmpty = true) :
    dictGet (postStage o sp sc sr d) "reactions" = dictGet d "reactions" := by
  unfold postStage
  split
  · split
    · rfl
    · split
      · exact dictGet_commentStage_reactions o sc sr d h
      · rw [dictGet_commentStage_reactions o sc sr _ h,
          dictGet_insert_ne d "posts" "reactions" (JVal.arr o.posts) (by decide)]
  · exact dictGet_commentStage_reactions o sc sr d h

/-- The profile dictionary never carries the three activity keys. -/
theorem dictGet_profileToDict_activity (pd : ProfileData) :
    dictGet (profileToDict pd) "posts" = none
    ∧ dictGet (profileToDict pd) "comments" = none
    ∧ dictGet (profileToDict pd) "reactions" = none := by
  refine ⟨?_, ?_, ?_⟩ <;> rfl

/-- A key missing from the profile dictionary and different from
`publications` is absent from the base dictionary. -/
theorem dictGet_baseDict_ne (o : RunOutcomes) (pd : ProfileData) (k : String)
    (h1 : dictGet (profileToDict pd) k = none) (h2 : k ≠ "publications") :
    dictGet (baseDict o pd) k = none := by
  have hd0 : dictGet (dictUpdate [] (profileToDict pd)) k = none := by
    rw [dictGet_update_none (profileToDict pd) [] k h1]
    rfl
  show dictGet
      (if o.fullPubs.isEmpty then dictUpdate [] (profileToDict pd)
       else dictInsert (dictUpdate [] (profileToDict pd)) "publications"
         (JVal.arr o.fullPubs)) k = none
  split
  · exact hd0
  · rw [dictGet_insert_ne _ "publications" k (JVal.arr o.fullPubs) h2]
    exact hd0

/-- C5: the try body of `run` is modelled as a total function into the
scraped dictionary (the outer handler swallows every stage exception), and
each failing stage contributes nothing: a navigation failure of the profile
page or a raise inside `extract_profile_data` yields the empty record, and a
failed or empty posts, comments or reactions stage leaves the corresponding
key absent from the returned record. -/
theorem run_never_raises_and_failed_stages_contribute_nothing
    (o : RunOutcomes) (sp sc sr : Bool) :
    (o.navProfile = Except.error () → runModel o sp sc sr = [])
    ∧ (o.profileData = Except.error () → runModel o sp sc sr = [])
    ∧ (o.navPosts = Except.error () ∨ o.posts.isEmpty = true →
        dictGet (runModel o sp sc sr) "posts" = none)
    ∧ (o.navComments = Except.error () ∨ o.comments.isEmpty = true →
        dictGet (runModel o sp sc sr) "comments" = none)
    ∧ (o.navReactions = Except.error () ∨ o.reactions.isEmpty = true →
        dictGet (runModel o sp sc sr) "reactions" = none) := by
  refine ⟨?_, ?_, ?_, ?_, ?_⟩
  · intro h
    unfold runModel
    rw [h]
  · intro h
    unfold runModel
    cases hnav : o.navProfile with
    | error e => rfl
    | ok u => rw [h]
  · intro h
    unfold runModel
    cases hnav : o.navProfile with
    | error e => rfl
    | ok u =>
      cases hpd : o.profileData with
      | error e => rfl
      | ok pd =>
        show dictGet (postStage o sp sc sr (baseDict o pd)) "posts" = none
        rw [dictGet_postStage_posts o sp sc sr _ h]
        exact dictGet_baseDict_ne o pd "posts" (dictGet_profileToDict_activity pd).1
          (by decide)
  · intro h
    unfold runModel
    cases hnav : o.navProfile with
    | error e => rfl
    | ok u =>
      cases hpd : o.profileData with
      | error e => rfl
      | ok pd =>
        show dictGet (postStage o sp sc sr (baseDict o pd)) "comments" = none
        rw [dictGet_postStage_comments o sp sc sr _ h]
        exact dictGet_baseDict_ne o pd "comments" (dictGet_profileToDict_activity pd).2.1
          (by decide)
  · intro h
    unfold runModel
    cases hnav : o.navProfile with
    | error e => rfl
    | ok u =>
      cases hpd : o.profileData with
      | error e => rfl
      | ok pd =>
        show dictGet (postStage o sp sc sr (baseDict o pd)) "reactions" = none
        rw [dictGet_postStage_reactions o sp sc sr _ h]
        exact dictGet_baseDict_ne o pd "reactions" (dictGet_profileToDict_activity pd).2.2
          (by decide)

/-- C5 witness: with the posts navigation raising, the returned record has
no `posts` key. -/
theorem run_failed_stage_witness :
    dictGet (runModel ⟨Except.ok (), Except.ok ⟨"J", "D", "", "", "", "", [], [], [], []⟩,
      [], Except.error (), [], Except.error (), [], Except.error (), []⟩ true true true)
      "posts" = none :=
  (run_never_raises_and_failed_stages_contribute_nothing _ true true true).2.2.1 (Or.inl rfl)

/-! ### C10: substring-based slug matching -/

/-- A prefix check for a concatenation implies the prefix check for its
first part. -/
theorem isPrefixOf_append_left :
    ∀ p q cs : List Char, (p ++ q).isPrefixOf cs = true → p.isPrefixOf cs = true := by
  intro p
  induction p with
  | nil => intro q cs _; simp
  | cons a p ih =>
    intro q cs h
    cases cs with
    | nil => simp at h
    | cons c cs =>
      rw [List.cons_append] at h
      simp only [List.isPrefixOf_cons₂, Bool.and_eq_true] at h ⊢
      exact ⟨h.1, ih q cs h.2⟩

/-- Containment of a concatenation implies containment of its first part. -/
theorem containsSubAux_append (p q : List Char) :
    ∀ cs, containsSubAux (p ++ q) cs = true → containsSubAux p cs = true := by
  intro cs
  induction cs with
  | nil =>
    intro h
    cases p with
    | nil => rfl
    | cons a as => simp [containsSubAux] at h
  | cons c rest ih =>
    intro h
    simp only [containsSubAux, Bool.or_eq_true] at h ⊢
    rcases h with h | h
    · exact Or.inl (isPrefixOf_append_left p q _ h)
    · exact Or.inr (ih h)

/-- If a string contains `t ++ u` then it contains `t`. -/
theorem containsSub_of_append (s t u : String) (h : containsSub s (t ++ u) = true) :
    containsSub s t = true := by
  unfold containsSub at h ⊢
  rw [String.data_append] at h
  exact containsSubAux_append t.data u.data s.data h

/-- C10: the authorship filter is substring-based: any link href containing
`/in/` followed by the slug makes the filter accept; with the empty slug
(derived whenever the profile URL holds no `/in/<segment>`, e.g. a company
URL) the filter accepts exactly the list items holding any link with `/in/`
in its href, so on the mixed jane-doe/john-smith card both comments are
extracted. -/
theorem slug_substring_filter (slug : String) (hrefs : List String) (href : String)
    (hm : href ∈ hrefs) (hc : containsSub href ("/in/" ++ slug) = true) :
    isAuthoredByUser slug (some hrefs) = true
    ∧ (∀ hrefs2 : List String, isAuthoredByUser "" (some hrefs2) =
        hrefs2.any (fun h => containsSub h "/in/"))
    ∧ slugFromUrl "https://www.linkedin.com/company/acme/" = ""
    ∧ slugFromUrl "https://www.linkedin.com/in/jane-doe/" = "jane-doe"
    ∧ (extract_comments_with_post_context ""
        [⟨some "Post body", some "2w", some "Acme Corp",
          [⟨"Great insight!", some ["https://www.linkedin.com/in/jane-doe"]⟩,
           ⟨"Thanks for sharing", some ["https://www.linkedin.com/in/john-smith"]⟩]⟩]).length
      = 2 := by
  refine ⟨?_, ?_, by decide, by decide, by decide⟩
  · unfold isAuthoredByUser
    rw [List.any_eq_true]
    refine ⟨href, hm, ?_⟩
    show (containsSub href "/in/" && containsSub href ("/in/" ++ slug)) = true
    rw [containsSub_of_append href "/in/" slug hc, hc]
    rfl
  · intro hrefs2
    show (hrefs2.any fun href => containsSub href "/in/" && containsSub href ("/in/" ++ "")) =
      hrefs2.any (fun h => containsSub h "/in/")
    rw [String.append_empty "/in/"]
    congr 1
    funext href2
    exact Bool.and_self _

/-- C10 witness: the filter at slug `john-smith` accepts a comment whose
list item holds a link to `/in/john-smith`. -/
theorem slug_substring_filter_witness :
    isAuthoredByUser "john-smith" (some ["https://www.linkedin.com/in/john-smith"]) = true :=
  (slug_substring_filter "john-smith" ["https://www.linkedin.com/in/john-smith"]
    "https://www.linkedin.com/in/john-smith" (by decide) (by decide)).1
